import Mathlib

/-!
# Wallet-integrated expense ledger — verification development

Shallow embedding of the transactional core of the expense tracker
(`src/database.py`, class `DatabaseManager`): wallets with two balances
(`upi_balance`, `cash_balance`), the expense table, and the ledger
operations `save_expense`, `delete_expense`, `update_expense`,
`set_wallet_balances`, `get_filtered_expenses`.

Currency amounts (SQLite `REAL`) are modelled as exact rationals `ℚ`;
payment methods are modelled as the strings the source compares against
(`"UPI"` vs everything else, the source's `else` branch being Cash);
calendar dates as integers ordered like SQL `DATE`; the expense table as
a list of rows, with `next_id` playing the role of the AUTOINCREMENT
primary-key counter; the wallet table as a total map from user id to
wallet (the source creates a wallet row for every user at registration
and self-heals on authentication).
-/

/-- A row of the `wallets` table: the two per-method balances. -/
structure Wallet where
  upi_balance : ℚ
  cash_balance : ℚ
deriving Repr, DecidableEq

/-- A row of the `expenses` table. -/
structure Expense where
  id : Nat
  user_id : Nat
  category : String
  title : String
  amount : ℚ
  date : Int
  notes : String
  payment_method : String
deriving Repr, DecidableEq

/-- The `expense_data` dict handed to `DatabaseManager.save_expense`. -/
structure ExpenseData where
  user_id : Nat
  category : String
  title : String
  amount : ℚ
  date : Int
  notes : String
  payment_method : String
deriving Repr, DecidableEq

/-- The `updated_data` dict handed to `DatabaseManager.update_expense`. -/
structure UpdatedData where
  category : String
  title : String
  amount : ℚ
  date : Int
  notes : String
  payment_method : String
deriving Repr, DecidableEq

/-- Database state: the wallet table (total over user ids), the expense
table, and the AUTOINCREMENT counter for expense primary keys. -/
structure DBState where
  wallets : Nat → Wallet
  expenses : List Expense
  next_id : Nat

/-- `UPDATE wallets SET ... WHERE user_id = ?`: replace one user's row. -/
def setUserWallet (s : DBState) (user_id : Nat) (w : Wallet) : DBState :=
  { s with wallets := fun u => if u = user_id then w else s.wallets u }

/-- The f-string built at `database.py:115/117`:
`"Insufficient {kind} balance. Current: $..., Required: $..."`. -/
def insufficientMsg (kind : String) (current required : ℚ) : String :=
  "Insufficient " ++ kind ++ " balance. Current: $" ++ toString current ++
    ", Required: $" ++ toString required ++ "."

/-- The f-string built at `database.py:169/170`:
`"Insufficient {kind} balance for update. Available: $..., Required: $..."`. -/
def insufficientUpdateMsg (kind : String) (available required : ℚ) : String :=
  "Insufficient " ++ kind ++ " balance for update. Available: $" ++
    toString available ++ ", Required: $" ++ toString required ++ "."

/-- `DatabaseManager.save_expense` (`database.py:106-134`). Returns the
result string (empty on success, an error message otherwise) and the new
state. Mirrors the source: pre-flight balance check for the chosen
method, then wallet debit (the `else` branch debits Cash for every
non-UPI method, as in the source) and row insert. -/
def save_expense (s : DBState) (d : ExpenseData) : String × DBState :=
  let wallet := s.wallets d.user_id
  if d.payment_method = "UPI" ∧ wallet.upi_balance < d.amount then
    (insufficientMsg "UPI" wallet.upi_balance d.amount, s)
  else if d.payment_method = "Cash" ∧ wallet.cash_balance < d.amount then
    (insufficientMsg "Cash" wallet.cash_balance d.amount, s)
  else
    let s1 :=
      if d.payment_method = "UPI" then
        setUserWallet s d.user_id
          { wallet with upi_balance := wallet.upi_balance - d.amount }
      else
        setUserWallet s d.user_id
          { wallet with cash_balance := wallet.cash_balance - d.amount }
    ("", { s1 with
            expenses := s1.expenses ++
              [⟨s.next_id, d.user_id, d.category, d.title, d.amount,
                d.date, d.notes, d.payment_method⟩],
            next_id := s.next_id + 1 })

/-- `SELECT ... FROM expenses WHERE id = ? AND user_id = ?` + `fetchone`. -/
def find_expense (s : DBState) (expense_id user_id : Nat) : Option Expense :=
  s.expenses.find? fun e => e.id == expense_id && e.user_id == user_id

/-- `DatabaseManager.delete_expense` (`database.py:136-153`). Ownership-
scoped lookup; on a miss returns `false` with the state unchanged, else
credits the wallet for the expense's method and deletes the row. -/
def delete_expense (s : DBState) (expense_id user_id : Nat) : Bool × DBState :=
  match find_expense s expense_id user_id with
  | none => (false, s)
  | some e =>
    let wallet := s.wallets user_id
    let s1 :=
      if e.payment_method = "UPI" then
        setUserWallet s user_id
          { wallet with upi_balance := wallet.upi_balance + e.amount }
      else
        setUserWallet s user_id
          { wallet with cash_balance := wallet.cash_balance + e.amount }
    (true, { s1 with
              expenses := s1.expenses.filter fun x =>
                !(x.id == expense_id && x.user_id == user_id) })

/-- `DatabaseManager.update_expense` (`database.py:155-192`). Projected
balances `temp_upi`/`temp_cash` credit the old expense back to its old
method; insufficient-funds checks compare the new amount against the
projected balance of the new method; on success the old leg is credited,
the new leg debited, and the row rewritten. -/
def update_expense (s : DBState) (expense_id user_id : Nat)
    (u : UpdatedData) : String × DBState :=
  match find_expense s expense_id user_id with
  | none => ("Transaction not found.", s)
  | some old =>
    let wallet := s.wallets user_id
    let temp_upi :=
      if old.payment_method = "UPI" then wallet.upi_balance + old.amount
      else wallet.upi_balance
    let temp_cash :=
      if old.payment_method = "UPI" then wallet.cash_balance
      else wallet.cash_balance + old.amount
    if u.payment_method = "UPI" ∧ temp_upi < u.amount then
      (insufficientUpdateMsg "UPI" temp_upi u.amount, s)
    else if u.payment_method = "Cash" ∧ temp_cash < u.amount then
      (insufficientUpdateMsg "Cash" temp_cash u.amount, s)
    else
      let w1 :=
        if old.payment_method = "UPI" then
          { wallet with upi_balance := wallet.upi_balance + old.amount }
        else
          { wallet with cash_balance := wallet.cash_balance + old.amount }
      let w2 :=
        if u.payment_method = "UPI" then
          { w1 with upi_balance := w1.upi_balance - u.amount }
        else
          { w1 with cash_balance := w1.cash_balance - u.amount }
      let s1 := setUserWallet s user_id w2
      ("", { s1 with
              expenses := s1.expenses.map fun e =>
                if e.id == expense_id && e.user_id == user_id then
                  { e with category := u.category, title := u.title,
                           amount := u.amount, date := u.date,
                           notes := u.notes,
                           payment_method := u.payment_method }
                else e })

/-- `DatabaseManager.set_wallet_balances` (`database.py:199-206`):
unconditional `UPDATE wallets SET upi_balance = ?, cash_balance = ?`,
returning `True`. -/
def set_wallet_balances (s : DBState) (user_id : Nat)
    (upi_balance cash_balance : ℚ) : Bool × DBState :=
  (true, setUserWallet s user_id ⟨upi_balance, cash_balance⟩)

/-- The WHERE clause of `get_filtered_expenses` (`database.py:208-216`):
`user_id = ? AND date BETWEEN ? AND ?`, plus `category IN (...)` only
when `categories` is non-empty (Python truthiness of the list), plus
`amount BETWEEN ? AND ?` only when `amount_range` is provided (Python
truthiness of the tuple). SQL `BETWEEN` is inclusive on both ends. -/
def matchesFilter (user_id : Nat) (start_date end_date : Int)
    (categories : List String) (amount_range : Option (ℚ × ℚ))
    (e : Expense) : Bool :=
  e.user_id == user_id && start_date ≤ e.date && e.date ≤ end_date &&
    (categories.isEmpty || categories.contains e.category) &&
    (match amount_range with
     | none => true
     | some (lo, hi) => decide (lo ≤ e.amount) && decide (e.amount ≤ hi))

/-- The `ORDER BY date DESC, id DESC` relation: `a` precedes `b` when
`a` has the later date, or the same date and the larger id. -/
def expBefore (a b : Expense) : Prop :=
  b.date < a.date ∨ (a.date = b.date ∧ b.id ≤ a.id)

instance : DecidableRel expBefore := fun a b => by
  unfold expBefore; infer_instance

/-- `DatabaseManager.get_filtered_expenses` (`database.py:208-220`):
rows of the user passing the filters, ordered by date descending with
ties broken by id descending. -/
def get_filtered_expenses (s : DBState) (user_id : Nat)
    (start_date end_date : Int) (categories : List String)
    (amount_range : Option (ℚ × ℚ)) : List Expense :=
  List.insertionSort expBefore
    (s.expenses.filter (matchesFilter user_id start_date end_date
      categories amount_range))

/-- One ledger mutation, as submitted by the caller: the operation kinds
quantified over by the balance invariant. -/
inductive Op where
  | add (d : ExpenseData)
  | upd (expense_id user_id : Nat) (u : UpdatedData)
  | del (expense_id user_id : Nat)

/-- Run one operation, keeping only the state (results discarded). -/
def applyOp (s : DBState) : Op → DBState
  | .add d => (save_expense s d).2
  | .upd eid uid u => (update_expense s eid uid u).2
  | .del eid uid => (delete_expense s eid uid).2

/-- Run a sequence of operations left to right. -/
def runOps (s : DBState) (ops : List Op) : DBState :=
  ops.foldl applyOp s

/-- The claims' side conditions on an operation: add/update carry a
positive amount and a payment method in `{UPI, Cash}`; delete carries
neither an amount nor a method. -/
def opValid : Op → Prop
  | .add d => 0 < d.amount ∧ (d.payment_method = "UPI" ∨ d.payment_method = "Cash")
  | .upd _ _ u => 0 < u.amount ∧ (u.payment_method = "UPI" ∨ u.payment_method = "Cash")
  | .del _ _ => True

/-- The per-user ledger invariant: both balances non-negative, and every
stored expense of the user carries a non-negative amount (the latter is
what delete/update credit back to the wallet). -/
def LedgerInv (uid : Nat) (s : DBState) : Prop :=
  0 ≤ (s.wallets uid).upi_balance ∧ 0 ≤ (s.wallets uid).cash_balance ∧
    ∀ e ∈ s.expenses, e.user_id = uid → 0 ≤ e.amount

/-! ## Helper lemmas -/

theorem setUserWallet_wallets (s : DBState) (user_id : Nat) (w : Wallet)
    (v : Nat) : (setUserWallet s user_id w).wallets v =
      if v = user_id then w else s.wallets v := rfl

theorem find_expense_eq_none (s : DBState) (expense_id user_id : Nat)
    (h : ∀ e ∈ s.expenses, ¬(e.id = expense_id ∧ e.user_id = user_id)) :
    find_expense s expense_id user_id = none := by
  apply List.find?_eq_none.mpr
  intro e he
  simpa using h e he

theorem find_expense_mem {s : DBState} {expense_id user_id : Nat}
    {e : Expense} (h : find_expense s expense_id user_id = some e) :
    e ∈ s.expenses := List.mem_of_find?_eq_some h

theorem find_expense_fields {s : DBState} {expense_id user_id : Nat}
    {e : Expense} (h : find_expense s expense_id user_id = some e) :
    e.id = expense_id ∧ e.user_id = user_id := by
  have := List.find?_some h
  simpa using this

/-! ## C2: insufficient funds on add -/

/-- C2: when the wallet balance for the chosen payment method is strictly
below the requested amount, `save_expense` returns the insufficient-funds
message carrying the current balance and the required amount, and the
state (wallets and expense table) is returned unchanged. -/
theorem save_expense_insufficient_funds (s : DBState) (d : ExpenseData)
    (h : (d.payment_method = "UPI" ∧ (s.wallets d.user_id).upi_balance < d.amount)
       ∨ (d.payment_method = "Cash" ∧ (s.wallets d.user_id).cash_balance < d.amount)) :
    save_expense s d =
      (insufficientMsg d.payment_method
        (if d.payment_method = "UPI" then (s.wallets d.user_id).upi_balance
         else (s.wallets d.user_id).cash_balance) d.amount, s) := by
  rcases h with ⟨hm, hlt⟩ | ⟨hm, hlt⟩
  · simp [save_expense, hm, hlt]
  · simp [save_expense, hm, hlt]

theorem save_expense_insufficient_funds_witness :
    (("Cash" : String) = "UPI" ∧
        (((⟨fun _ => ⟨100, 40⟩, [], 1⟩ : DBState).wallets 1).upi_balance < (100 : ℚ))
      ∨ (("Cash" : String) = "Cash" ∧
        (((⟨fun _ => ⟨100, 40⟩, [], 1⟩ : DBState).wallets 1).cash_balance < (100 : ℚ)))) ∧
    save_expense ⟨fun _ => ⟨100, 40⟩, [], 1⟩ ⟨1, "Food", "lunch", 100, 0, "", "Cash"⟩ =
      (insufficientMsg "Cash"
        (if ("Cash" : String) = "UPI"
         then ((⟨fun _ => ⟨100, 40⟩, [], 1⟩ : DBState).wallets 1).upi_balance
         else ((⟨fun _ => ⟨100, 40⟩, [], 1⟩ : DBState).wallets 1).cash_balance) 100,
       ⟨fun _ => ⟨100, 40⟩, [], 1⟩) :=
  ⟨by decide, save_expense_insufficient_funds ⟨fun _ => ⟨100, 40⟩, [], 1⟩
      ⟨1, "Food", "lunch", 100, 0, "", "Cash"⟩ (by decide)⟩

/-! ## C9: delete of a missing or foreign expense -/

/-- C9: when no stored expense has the given id AND belongs to the given
user (including an expense that exists under a different owner),
`delete_expense` returns `false` and the state — every user's expenses
and every wallet — is returned unchanged. -/
theorem delete_expense_not_found (s : DBState) (expense_id user_id : Nat)
    (h : ∀ e ∈ s.expenses, ¬(e.id = expense_id ∧ e.user_id = user_id)) :
    delete_expense s expense_id user_id = (false, s) := by
  simp [delete_expense, find_expense_eq_none s expense_id user_id h]

theorem delete_expense_not_found_witness :
    (∀ e ∈ (⟨fun _ => ⟨50, 50⟩, [⟨1, 1, "Food", "lunch", 10, 0, "", "UPI"⟩], 2⟩ :
        DBState).expenses, ¬(e.id = 1 ∧ e.user_id = 2)) ∧
    delete_expense ⟨fun _ => ⟨50, 50⟩, [⟨1, 1, "Food", "lunch", 10, 0, "", "UPI"⟩], 2⟩ 1 2 =
      (false, ⟨fun _ => ⟨50, 50⟩, [⟨1, 1, "Food", "lunch", 10, 0, "", "UPI"⟩], 2⟩) :=
  ⟨by decide, delete_expense_not_found
      ⟨fun _ => ⟨50, 50⟩, [⟨1, 1, "Food", "lunch", 10, 0, "", "UPI"⟩], 2⟩ 1 2 (by decide)⟩

/-! ## C8: set_wallet_balances -/

/-- C8 counterexample: `set_wallet_balances` called with a negative
`upi_balance` does not reject the input — it returns `True` and stores
the negative balance. -/
theorem set_wallet_balances_accepts_negative :
    (set_wallet_balances ⟨fun _ => ⟨7, 7⟩, [], 1⟩ 1 (-5) 3).1 = true ∧
    ((set_wallet_balances ⟨fun _ => ⟨7, 7⟩, [], 1⟩ 1 (-5) 3).2.wallets 1) = ⟨-5, 3⟩ ∧
    ¬((set_wallet_balances ⟨fun _ => ⟨7, 7⟩, [], 1⟩ 1 (-5) 3).2.wallets 1 =
        (⟨fun _ => ⟨7, 7⟩, [], 1⟩ : DBState).wallets 1) := by
  refine ⟨rfl, rfl, by decide⟩

/-- C8 (amended): `set_wallet_balances` performs no sign check at all:
for every input, negative included, it returns `True` and overwrites the
user's two balances with exactly the given values, leaving every other
user's wallet and the expense table untouched — it never consults or
recomputes existing expenses. Negative inputs are kept out only by the
UI form (`main.py`, `min_value=0.0`), not by this operation. -/
theorem set_wallet_balances_effects (s : DBState) (user_id : Nat)
    (upi_balance cash_balance : ℚ) :
    (set_wallet_balances s user_id upi_balance cash_balance).1 = true ∧
    (set_wallet_balances s user_id upi_balance cash_balance).2.wallets user_id =
      ⟨upi_balance, cash_balance⟩ ∧
    (∀ v, v ≠ user_id →
      (set_wallet_balances s user_id upi_balance cash_balance).2.wallets v =
        s.wallets v) ∧
    (set_wallet_balances s user_id upi_balance cash_balance).2.expenses =
      s.expenses := by
  refine ⟨rfl, by simp [set_wallet_balances, setUserWallet], ?_, rfl⟩
  intro v hv
  simp [set_wallet_balances, setUserWallet, hv]

/-! ## C7: unvalidated input reaches storage -/

/-- C7: `save_expense` performs no input validation. At the concrete
failing input — amount `-10`, method `Cash`, cash balance `5` — the call
is not rejected: it returns the success result `""`, "debits" the wallet
by the negative amount (raising the cash balance from 5 to 15), and
inserts an expense row carrying the negative amount. The claimed
`ValidationError` rejection before any storage interaction does not
exist in the code. -/
theorem save_expense_accepts_invalid_input :
    (save_expense ⟨fun _ => ⟨0, 5⟩, [], 1⟩ ⟨1, "Food", "t", -10, 0, "", "Cash"⟩).1 = "" ∧
    ((save_expense ⟨fun _ => ⟨0, 5⟩, [], 1⟩ ⟨1, "Food", "t", -10, 0, "", "Cash"⟩).2.wallets 1) =
      ⟨0, 15⟩ ∧
    ((save_expense ⟨fun _ => ⟨0, 5⟩, [], 1⟩ ⟨1, "Food", "t", -10, 0, "", "Cash"⟩).2.expenses.map
        (fun e => e.amount)) = [-10] := by
  refine ⟨rfl, ?_, ?_⟩ <;>
    · simp [save_expense, setUserWallet]
      try norm_num

/-! ## C3: projected-balance check on update -/

/-- C3: on an existing owned expense, `update_expense` projects the
balances by crediting the old amount back to the old method
(`temp_upi`/`temp_cash`); when the projected balance of the new method
is below the new amount the call returns the insufficient-funds-for-
update message carrying that projected balance (not the raw current
one), and the state is returned unchanged. -/
theorem update_expense_insufficient_projected (s : DBState)
    (expense_id user_id : Nat) (u : UpdatedData) (old : Expense)
    (hfind : find_expense s expense_id user_id = some old)
    (h : (u.payment_method = "UPI" ∧
            (if old.payment_method = "UPI"
             then (s.wallets user_id).upi_balance + old.amount
             else (s.wallets user_id).upi_balance) < u.amount)
       ∨ (u.payment_method = "Cash" ∧
            (if old.payment_method = "UPI"
             then (s.wallets user_id).cash_balance
             else (s.wallets user_id).cash_balance + old.amount) < u.amount)) :
    update_expense s expense_id user_id u =
      (insufficientUpdateMsg u.payment_method
        (if u.payment_method = "UPI" then
           (if old.payment_method = "UPI"
            then (s.wallets user_id).upi_balance + old.amount
            else (s.wallets user_id).upi_balance)
         else
           (if old.payment_method = "UPI"
            then (s.wallets user_id).cash_balance
            else (s.wallets user_id).cash_balance + old.amount))
        u.amount, s) := by
  rcases h with ⟨hm, hlt⟩ | ⟨hm, hlt⟩
  · simp [update_expense, hfind, hm, hlt]
  · simp [update_expense, hfind, hm, hlt]

theorem update_expense_insufficient_projected_witness :
    (find_expense ⟨fun _ => ⟨20, 0⟩, [⟨1, 1, "Food", "lunch", 30, 0, "", "UPI"⟩], 2⟩ 1 1 =
        some ⟨1, 1, "Food", "lunch", 30, 0, "", "UPI"⟩) ∧
    ((("UPI" : String) = "UPI" ∧
        (if ("UPI" : String) = "UPI"
         then ((⟨fun _ => ⟨20, 0⟩, [⟨1, 1, "Food", "lunch", 30, 0, "", "UPI"⟩], 2⟩ :
            DBState).wallets 1).upi_balance + (30 : ℚ)
         else ((⟨fun _ => ⟨20, 0⟩, [⟨1, 1, "Food", "lunch", 30, 0, "", "UPI"⟩], 2⟩ :
            DBState).wallets 1).upi_balance) < (60 : ℚ))
      ∨ (("UPI" : String) = "Cash" ∧
        (if ("UPI" : String) = "UPI"
         then ((⟨fun _ => ⟨20, 0⟩, [⟨1, 1, "Food", "lunch", 30, 0, "", "UPI"⟩], 2⟩ :
            DBState).wallets 1).cash_balance
         else ((⟨fun _ => ⟨20, 0⟩, [⟨1, 1, "Food", "lunch", 30, 0, "", "UPI"⟩], 2⟩ :
            DBState).wallets 1).cash_balance + (30 : ℚ)) < (60 : ℚ))) ∧
    update_expense ⟨fun _ => ⟨20, 0⟩, [⟨1, 1, "Food", "lunch", 30, 0, "", "UPI"⟩], 2⟩ 1 1
        ⟨"Food", "lunch", 60, 0, "", "UPI"⟩ =
      (insufficientUpdateMsg "UPI"
        (if ("UPI" : String) = "UPI" then
           (if ("UPI" : String) = "UPI"
            then ((⟨fun _ => ⟨20, 0⟩, [⟨1, 1, "Food", "lunch", 30, 0, "", "UPI"⟩], 2⟩ :
               DBState).wallets 1).upi_balance + (30 : ℚ)
            else ((⟨fun _ => ⟨20, 0⟩, [⟨1, 1, "Food", "lunch", 30, 0, "", "UPI"⟩], 2⟩ :
               DBState).wallets 1).upi_balance)
         else
           (if ("UPI" : String) = "UPI"
            then ((⟨fun _ => ⟨20, 0⟩, [⟨1, 1, "Food", "lunch", 30, 0, "", "UPI"⟩], 2⟩ :
               DBState).wallets 1).cash_balance
            else ((⟨fun _ => ⟨20, 0⟩, [⟨1, 1, "Food", "lunch", 30, 0, "", "UPI"⟩], 2⟩ :
               DBState).wallets 1).cash_balance + (30 : ℚ)))
        60, ⟨fun _ => ⟨20, 0⟩, [⟨1, 1, "Food", "lunch", 30, 0, "", "UPI"⟩], 2⟩) :=
  ⟨by decide, Or.inl ⟨rfl, by norm_num⟩,
    update_expense_insufficient_projected
      ⟨fun _ => ⟨20, 0⟩, [⟨1, 1, "Food", "lunch", 30, 0, "", "UPI"⟩], 2⟩ 1 1
      ⟨"Food", "lunch", 60, 0, "", "UPI"⟩ ⟨1, 1, "Food", "lunch", 30, 0, "", "UPI"⟩
      (by decide) (Or.inl ⟨rfl, by norm_num⟩)⟩

/-! ## Success path of save_expense (shared helper) -/

theorem insufficientUpdateMsg_ne_empty (kind : String) (a r : ℚ) :
    insufficientUpdateMsg kind a r ≠ "" := by
  simp [insufficientUpdateMsg, String.ext_iff]

/-- With a valid method and a sufficient balance, `save_expense` returns
`""` and the state with the chosen method debited, the new row appended
(carrying id `next_id`), and the id counter bumped. -/
theorem save_expense_ok (s : DBState) (d : ExpenseData)
    (hm : d.payment_method = "UPI" ∨ d.payment_method = "Cash")
    (hsuff : if d.payment_method = "UPI"
             then d.amount ≤ (s.wallets d.user_id).upi_balance
             else d.amount ≤ (s.wallets d.user_id).cash_balance) :
    save_expense s d = ("",
      { wallets := fun v => if v = d.user_id then
            (if d.payment_method = "UPI"
             then { s.wallets d.user_id with
                      upi_balance := (s.wallets d.user_id).upi_balance - d.amount }
             else { s.wallets d.user_id with
                      cash_balance := (s.wallets d.user_id).cash_balance - d.amount })
          else s.wallets v,
        expenses := s.expenses ++
          [⟨s.next_id, d.user_id, d.category, d.title, d.amount, d.date,
            d.notes, d.payment_method⟩],
        next_id := s.next_id + 1 }) := by
  rcases hm with hm | hm <;>
    · rw [hm] at hsuff
      simp [save_expense, hm, setUserWallet, not_lt.mpr hsuff]

/-! ## C6: result of a successful add -/

/-- C6 counterexample: `save_expense` does not return the identifier of
the newly created expense. Two successful calls that create rows with
different identifiers (5 and 9) return the same result value `""`, so
the return value cannot be the new identifier. -/
theorem save_expense_result_not_identifier :
    (save_expense ⟨fun _ => ⟨100, 100⟩, [], 5⟩ ⟨1, "Food", "lunch", 10, 0, "", "Cash"⟩).1 =
      (save_expense ⟨fun _ => ⟨100, 100⟩, [], 9⟩ ⟨1, "Food", "lunch", 10, 0, "", "Cash"⟩).1 ∧
    ((save_expense ⟨fun _ => ⟨100, 100⟩, [], 5⟩ ⟨1, "Food", "lunch", 10, 0, "", "Cash"⟩).2.expenses.map
        (fun e => e.id)) = [5] ∧
    ((save_expense ⟨fun _ => ⟨100, 100⟩, [], 9⟩ ⟨1, "Food", "lunch", 10, 0, "", "Cash"⟩).2.expenses.map
        (fun e => e.id)) = [9] ∧
    (5 : Nat) ≠ 9 := by
  refine ⟨rfl, ?_, ?_, by decide⟩ <;>
    · norm_num [save_expense, setUserWallet]
      simp

/-- C6 (amended): a successful `save_expense` (valid method, sufficient
balance) returns the empty string — the success marker, not the new
expense identifier — and its only effects are the wallet debit for the
chosen method and the appended expense row (with the id counter bump
that assigns the row its id). -/
theorem save_expense_success_effects (s : DBState) (d : ExpenseData)
    (hm : d.payment_method = "UPI" ∨ d.payment_method = "Cash")
    (hsuff : if d.payment_method = "UPI"
             then d.amount ≤ (s.wallets d.user_id).upi_balance
             else d.amount ≤ (s.wallets d.user_id).cash_balance) :
    (save_expense s d).1 = "" ∧
    (save_expense s d).2.expenses = s.expenses ++
      [⟨s.next_id, d.user_id, d.category, d.title, d.amount, d.date, d.notes,
        d.payment_method⟩] ∧
    (save_expense s d).2.next_id = s.next_id + 1 ∧
    (∀ v, v ≠ d.user_id → (save_expense s d).2.wallets v = s.wallets v) ∧
    (save_expense s d).2.wallets d.user_id =
      (if d.payment_method = "UPI"
       then { s.wallets d.user_id with
                upi_balance := (s.wallets d.user_id).upi_balance - d.amount }
       else { s.wallets d.user_id with
                cash_balance := (s.wallets d.user_id).cash_balance - d.amount }) := by
  rw [save_expense_ok s d hm hsuff]
  refine ⟨rfl, rfl, rfl, ?_, by simp⟩
  intro v hv
  simp [hv]

theorem save_expense_success_effects_witness :
    ((("UPI" : String) = "UPI" ∨ ("UPI" : String) = "Cash") ∧
     (if ("UPI" : String) = "UPI"
      then (10 : ℚ) ≤ ((⟨fun _ => ⟨100, 40⟩, [], 3⟩ : DBState).wallets 1).upi_balance
      else (10 : ℚ) ≤ ((⟨fun _ => ⟨100, 40⟩, [], 3⟩ : DBState).wallets 1).cash_balance)) ∧
    ((save_expense ⟨fun _ => ⟨100, 40⟩, [], 3⟩ ⟨1, "Food", "lunch", 10, 0, "", "UPI"⟩).1 = "" ∧
     (save_expense ⟨fun _ => ⟨100, 40⟩, [], 3⟩ ⟨1, "Food", "lunch", 10, 0, "", "UPI"⟩).2.expenses =
       (⟨fun _ => ⟨100, 40⟩, [], 3⟩ : DBState).expenses ++
         [⟨(⟨fun _ => ⟨100, 40⟩, [], 3⟩ : DBState).next_id, 1, "Food", "lunch", 10, 0, "", "UPI"⟩] ∧
     (save_expense ⟨fun _ => ⟨100, 40⟩, [], 3⟩ ⟨1, "Food", "lunch", 10, 0, "", "UPI"⟩).2.next_id =
       (⟨fun _ => ⟨100, 40⟩, [], 3⟩ : DBState).next_id + 1 ∧
     (∀ v, v ≠ 1 →
       (save_expense ⟨fun _ => ⟨100, 40⟩, [], 3⟩ ⟨1, "Food", "lunch", 10, 0, "", "UPI"⟩).2.wallets v =
         (⟨fun _ => ⟨100, 40⟩, [], 3⟩ : DBState).wallets v) ∧
     (save_expense ⟨fun _ => ⟨100, 40⟩, [], 3⟩ ⟨1, "Food", "lunch", 10, 0, "", "UPI"⟩).2.wallets 1 =
       (if ("UPI" : String) = "UPI"
        then { (⟨fun _ => ⟨100, 40⟩, [], 3⟩ : DBState).wallets 1 with
                 upi_balance := ((⟨fun _ => ⟨100, 40⟩, [], 3⟩ : DBState).wallets 1).upi_balance - 10 }
        else { (⟨fun _ => ⟨100, 40⟩, [], 3⟩ : DBState).wallets 1 with
                 cash_balance := ((⟨fun _ => ⟨100, 40⟩, [], 3⟩ : DBState).wallets 1).cash_balance - 10 })) :=
  ⟨⟨Or.inl rfl, by decide⟩,
    save_expense_success_effects ⟨fun _ => ⟨100, 40⟩, [], 3⟩
      ⟨1, "Food", "lunch", 10, 0, "", "UPI"⟩ (Or.inl rfl) (by decide)⟩

/-! ## C5: add-then-delete round trip -/

/-- C5: from any wallet state with sufficient balance for the chosen
method (`UPI` or `Cash`), a successful `save_expense` followed by
`delete_expense` of the expense just created (the row that received id
`next_id`; freshness of that id is what AUTOINCREMENT guarantees)
restores every wallet balance to exactly its pre-add value. -/
theorem add_then_delete_round_trip (s : DBState) (d : ExpenseData)
    (hm : d.payment_method = "UPI" ∨ d.payment_method = "Cash")
    (hfresh : ∀ e ∈ s.expenses, e.id ≠ s.next_id)
    (hsuff : if d.payment_method = "UPI"
             then d.amount ≤ (s.wallets d.user_id).upi_balance
             else d.amount ≤ (s.wallets d.user_id).cash_balance) :
    (save_expense s d).1 = "" ∧
    (delete_expense (save_expense s d).2 s.next_id d.user_id).1 = true ∧
    ∀ v, (delete_expense (save_expense s d).2 s.next_id d.user_id).2.wallets v
      = s.wallets v := by
  rw [save_expense_ok s d hm hsuff]
  have hfind :
      find_expense
        ({ wallets := fun v => if v = d.user_id then
              (if d.payment_method = "UPI"
               then { s.wallets d.user_id with
                        upi_balance := (s.wallets d.user_id).upi_balance - d.amount }
               else { s.wallets d.user_id with
                        cash_balance := (s.wallets d.user_id).cash_balance - d.amount })
            else s.wallets v,
           expenses := s.expenses ++
             [⟨s.next_id, d.user_id, d.category, d.title, d.amount, d.date,
               d.notes, d.payment_method⟩],
           next_id := s.next_id + 1 } : DBState) s.next_id d.user_id =
      some ⟨s.next_id, d.user_id, d.category, d.title, d.amount, d.date,
        d.notes, d.payment_method⟩ := by
    unfold find_expense
    rw [List.find?_append]
    have h1 : s.expenses.find?
        (fun e => e.id == s.next_id && e.user_id == d.user_id) = none := by
      apply List.find?_eq_none.mpr
      intro e he
      simp [hfresh e he]
    rw [h1]
    simp [List.find?]
  refine ⟨rfl, ?_, ?_⟩
  · simp [delete_expense, hfind]
  · intro v
    simp only [delete_expense, hfind]
    rcases hm with hpm | hpm <;> by_cases hv : v = d.user_id <;>
      simp [setUserWallet, hv, hpm, sub_add_cancel]

theorem add_then_delete_round_trip_witness :
    ((("UPI" : String) = "UPI" ∨ ("UPI" : String) = "Cash") ∧
     (∀ e ∈ (⟨fun _ => ⟨100, 50⟩, [], 1⟩ : DBState).expenses, e.id ≠ 1) ∧
     (if ("UPI" : String) = "UPI"
      then (30 : ℚ) ≤ ((⟨fun _ => ⟨100, 50⟩, [], 1⟩ : DBState).wallets 1).upi_balance
      else (30 : ℚ) ≤ ((⟨fun _ => ⟨100, 50⟩, [], 1⟩ : DBState).wallets 1).cash_balance)) ∧
    ((save_expense ⟨fun _ => ⟨100, 50⟩, [], 1⟩ ⟨1, "Food", "lunch", 30, 0, "", "UPI"⟩).1 = "" ∧
     (delete_expense
        (save_expense ⟨fun _ => ⟨100, 50⟩, [], 1⟩ ⟨1, "Food", "lunch", 30, 0, "", "UPI"⟩).2
        1 1).1 = true ∧
     ∀ v, (delete_expense
        (save_expense ⟨fun _ => ⟨100, 50⟩, [], 1⟩ ⟨1, "Food", "lunch", 30, 0, "", "UPI"⟩).2
        1 1).2.wallets v = (⟨fun _ => ⟨100, 50⟩, [], 1⟩ : DBState).wallets v) :=
  ⟨⟨Or.inl rfl, by decide, by decide⟩,
    add_then_delete_round_trip ⟨fun _ => ⟨100, 50⟩, [], 1⟩
      ⟨1, "Food", "lunch", 30, 0, "", "UPI"⟩ (Or.inl rfl) (by decide) (by decide)⟩

/-! ## C4: net effect of a successful update -/

/-- C4: a successful `update_expense` credits the old method by the old
amount and debits the new method by the new amount (both equalities
below cover all four method combinations), touches no other user's
wallet, rewrites exactly the matching expense row, and in particular an
update with unchanged method and unchanged amount leaves the user's
wallet exactly as it was (while a method switch moves the full amount
between the two balances, as the two equalities instantiate). -/
theorem update_expense_net_effect (s : DBState) (expense_id user_id : Nat)
    (u : UpdatedData) (old : Expense)
    (hfind : find_expense s expense_id user_id = some old)
    (hok : (update_expense s expense_id user_id u).1 = "") :
    ((update_expense s expense_id user_id u).2.wallets user_id).upi_balance
      = (s.wallets user_id).upi_balance
        + (if old.payment_method = "UPI" then old.amount else 0)
        - (if u.payment_method = "UPI" then u.amount else 0) ∧
    ((update_expense s expense_id user_id u).2.wallets user_id).cash_balance
      = (s.wallets user_id).cash_balance
        + (if old.payment_method = "UPI" then 0 else old.amount)
        - (if u.payment_method = "UPI" then 0 else u.amount) ∧
    (∀ v, v ≠ user_id →
      (update_expense s expense_id user_id u).2.wallets v = s.wallets v) ∧
    (update_expense s expense_id user_id u).2.expenses
      = s.expenses.map (fun e =>
          if e.id == expense_id && e.user_id == user_id then
            { e with category := u.category, title := u.title,
                     amount := u.amount, date := u.date, notes := u.notes,
                     payment_method := u.payment_method }
          else e) ∧
    (old.payment_method = u.payment_method → old.amount = u.amount →
      (update_expense s expense_id user_id u).2.wallets user_id
        = s.wallets user_id) := by
  by_cases hc1 : u.payment_method = "UPI" ∧
      (if old.payment_method = "UPI"
       then (s.wallets user_id).upi_balance + old.amount
       else (s.wallets user_id).upi_balance) < u.amount
  · exfalso
    simp only [update_expense, hfind, if_pos hc1] at hok
    exact insufficientUpdateMsg_ne_empty _ _ _ hok
  by_cases hc2 : u.payment_method = "Cash" ∧
      (if old.payment_method = "UPI"
       then (s.wallets user_id).cash_balance
       else (s.wallets user_id).cash_balance + old.amount) < u.amount
  · exfalso
    simp only [update_expense, hfind, if_neg hc1, if_pos hc2] at hok
    exact insufficientUpdateMsg_ne_empty _ _ _ hok
  simp only [update_expense, hfind, if_neg hc1, if_neg hc2]
  refine ⟨?_, ?_, ?_, ?_, ?_⟩
  · by_cases hold : old.payment_method = "UPI" <;>
      by_cases hnew : u.payment_method = "UPI" <;>
        simp [setUserWallet, hold, hnew]
  · by_cases hold : old.payment_method = "UPI" <;>
      by_cases hnew : u.payment_method = "UPI" <;>
        simp [setUserWallet, hold, hnew]
  · intro v hv
    simp [setUserWallet, hv]
  · simp [setUserWallet]
  · intro hpm ham
    by_cases hold : old.payment_method = "UPI" <;>
      simp [setUserWallet, hold, ← hpm, ← ham, add_sub_cancel_right]

theorem update_expense_net_effect_witness :
    ((find_expense ⟨fun _ => ⟨100, 50⟩, [⟨1, 1, "Food", "lunch", 30, 0, "", "UPI"⟩], 2⟩ 1 1 =
        some ⟨1, 1, "Food", "lunch", 30, 0, "", "UPI"⟩) ∧
     (update_expense ⟨fun _ => ⟨100, 50⟩, [⟨1, 1, "Food", "lunch", 30, 0, "", "UPI"⟩], 2⟩ 1 1
        ⟨"Food", "dinner", 20, 0, "", "Cash"⟩).1 = "") ∧
    (((update_expense ⟨fun _ => ⟨100, 50⟩, [⟨1, 1, "Food", "lunch", 30, 0, "", "UPI"⟩], 2⟩ 1 1
        ⟨"Food", "dinner", 20, 0, "", "Cash"⟩).2.wallets 1).upi_balance
      = ((⟨fun _ => ⟨100, 50⟩, [⟨1, 1, "Food", "lunch", 30, 0, "", "UPI"⟩], 2⟩ :
          DBState).wallets 1).upi_balance
        + (if (⟨1, 1, "Food", "lunch", 30, 0, "", "UPI"⟩ : Expense).payment_method = "UPI"
           then (⟨1, 1, "Food", "lunch", 30, 0, "", "UPI"⟩ : Expense).amount else 0)
        - (if (⟨"Food", "dinner", 20, 0, "", "Cash"⟩ : UpdatedData).payment_method = "UPI"
           then (⟨"Food", "dinner", 20, 0, "", "Cash"⟩ : UpdatedData).amount else 0) ∧
     ((update_expense ⟨fun _ => ⟨100, 50⟩, [⟨1, 1, "Food", "lunch", 30, 0, "", "UPI"⟩], 2⟩ 1 1
        ⟨"Food", "dinner", 20, 0, "", "Cash"⟩).2.wallets 1).cash_balance
      = ((⟨fun _ => ⟨100, 50⟩, [⟨1, 1, "Food", "lunch", 30, 0, "", "UPI"⟩], 2⟩ :
          DBState).wallets 1).cash_balance
        + (if (⟨1, 1, "Food", "lunch", 30, 0, "", "UPI"⟩ : Expense).payment_method = "UPI"
           then 0 else (⟨1, 1, "Food", "lunch", 30, 0, "", "UPI"⟩ : Expense).amount)
        - (if (⟨"Food", "dinner", 20, 0, "", "Cash"⟩ : UpdatedData).payment_method = "UPI"
           then 0 else (⟨"Food", "dinner", 20, 0, "", "Cash"⟩ : UpdatedData).amount) ∧
     (∀ v, v ≠ 1 →
       (update_expense ⟨fun _ => ⟨100, 50⟩, [⟨1, 1, "Food", "lunch", 30, 0, "", "UPI"⟩], 2⟩ 1 1
          ⟨"Food", "dinner", 20, 0, "", "Cash"⟩).2.wallets v =
        (⟨fun _ => ⟨100, 50⟩, [⟨1, 1, "Food", "lunch", 30, 0, "", "UPI"⟩], 2⟩ :
          DBState).wallets v) ∧
     (update_expense ⟨fun _ => ⟨100, 50⟩, [⟨1, 1, "Food", "lunch", 30, 0, "", "UPI"⟩], 2⟩ 1 1
        ⟨"Food", "dinner", 20, 0, "", "Cash"⟩).2.expenses
      = (⟨fun _ => ⟨100, 50⟩, [⟨1, 1, "Food", "lunch", 30, 0, "", "UPI"⟩], 2⟩ :
          DBState).expenses.map (fun e =>
          if e.id == 1 && e.user_id == 1 then
            { e with category := "Food", title := "dinner",
                     amount := (20 : ℚ), date := (0 : Int), notes := "",
                     payment_method := "Cash" }
          else e) ∧
     ((⟨1, 1, "Food", "lunch", 30, 0, "", "UPI"⟩ : Expense).payment_method =
         (⟨"Food", "dinner", 20, 0, "", "Cash"⟩ : UpdatedData).payment_method →
      (⟨1, 1, "Food", "lunch", 30, 0, "", "UPI"⟩ : Expense).amount =
         (⟨"Food", "dinner", 20, 0, "", "Cash"⟩ : UpdatedData).amount →
      (update_expense ⟨fun _ => ⟨100, 50⟩, [⟨1, 1, "Food", "lunch", 30, 0, "", "UPI"⟩], 2⟩ 1 1
         ⟨"Food", "dinner", 20, 0, "", "Cash"⟩).2.wallets 1 =
        (⟨fun _ => ⟨100, 50⟩, [⟨1, 1, "Food", "lunch", 30, 0, "", "UPI"⟩], 2⟩ :
          DBState).wallets 1)) :=
  ⟨⟨by decide, by decide⟩,
    update_expense_net_effect ⟨fun _ => ⟨100, 50⟩, [⟨1, 1, "Food", "lunch", 30, 0, "", "UPI"⟩], 2⟩
      1 1 ⟨"Food", "dinner", 20, 0, "", "Cash"⟩ ⟨1, 1, "Food", "lunch", 30, 0, "", "UPI"⟩
      (by decide) (by decide)⟩

/-! ## C10: filtered retrieval -/

instance : IsTotal Expense expBefore := ⟨by
  intro a b
  rcases lt_trichotomy a.date b.date with h | h | h
  · exact Or.inr (Or.inl h)
  · rcases Nat.le_total b.id a.id with h2 | h2
    · exact Or.inl (Or.inr ⟨h, h2⟩)
    · exact Or.inr (Or.inr ⟨h.symm, h2⟩)
  · exact Or.inl (Or.inl h)⟩

instance : IsTrans Expense expBefore := ⟨by
  intro a b c hab hbc
  rcases hab with h | ⟨h1, h2⟩ <;> rcases hbc with h' | ⟨h1', h2'⟩
  · exact Or.inl (h'.trans h)
  · exact Or.inl (h1' ▸ h)
  · exact Or.inl (h1 ▸ h')
  · exact Or.inr ⟨h1.trans h1', h2'.trans h2⟩⟩

/-- C10: `get_filtered_expenses` returns exactly the user's stored rows
whose date lies in the inclusive range, whose category is in the given
set when that set is non-empty (no category restriction when empty), and
whose amount lies in the inclusive range when one is given — as a
permutation of the filtered table (so with exact multiplicity) — ordered
by date descending with ties broken by id descending, and it returns the
empty sequence (not an error) when nothing matches. -/
theorem get_filtered_expenses_spec (s : DBState) (user_id : Nat)
    (start_date end_date : Int) (categories : List String)
    (amount_range : Option (ℚ × ℚ)) :
    (get_filtered_expenses s user_id start_date end_date categories
        amount_range).Perm
      (s.expenses.filter (matchesFilter user_id start_date end_date
        categories amount_range)) ∧
    (∀ e, e ∈ get_filtered_expenses s user_id start_date end_date categories
        amount_range ↔
      (e ∈ s.expenses ∧ e.user_id = user_id ∧
        start_date ≤ e.date ∧ e.date ≤ end_date ∧
        (categories = [] ∨ e.category ∈ categories) ∧
        (match amount_range with
         | none => True
         | some (lo, hi) => lo ≤ e.amount ∧ e.amount ≤ hi))) ∧
    List.Pairwise expBefore
      (get_filtered_expenses s user_id start_date end_date categories
        amount_range) ∧
    ((∀ e ∈ s.expenses, matchesFilter user_id start_date end_date categories
        amount_range e = false) →
      get_filtered_expenses s user_id start_date end_date categories
        amount_range = []) := by
  refine ⟨List.perm_insertionSort expBefore _, ?_, ?_, ?_⟩
  · intro e
    unfold get_filtered_expenses
    rw [List.Perm.mem_iff (List.perm_insertionSort expBefore _),
      List.mem_filter]
    constructor
    · rintro ⟨hmem, hf⟩
      refine ⟨hmem, ?_⟩
      simp only [matchesFilter, Bool.and_eq_true, beq_iff_eq,
        decide_eq_true_eq, Bool.or_eq_true, List.isEmpty_iff] at hf
      obtain ⟨⟨⟨⟨h1, h2⟩, h3⟩, h4⟩, h5⟩ := hf
      refine ⟨h1, h2, h3, ?_, ?_⟩
      · rcases h4 with h4 | h4
        · exact Or.inl h4
        · exact Or.inr (by simpa using h4)
      · cases amount_range with
        | none => trivial
        | some p =>
          obtain ⟨lo, hi⟩ := p
          simpa using h5
    · rintro ⟨hmem, h1, h2, h3, h4, h5⟩
      refine ⟨hmem, ?_⟩
      simp only [matchesFilter, Bool.and_eq_true, beq_iff_eq,
        decide_eq_true_eq, Bool.or_eq_true, List.isEmpty_iff]
      refine ⟨⟨⟨⟨h1, h2⟩, h3⟩, ?_⟩, ?_⟩
      · rcases h4 with h4 | h4
        · exact Or.inl h4
        · exact Or.inr (by simpa using h4)
      · cases amount_range with
        | none => trivial
        | some p =>
          obtain ⟨lo, hi⟩ := p
          simpa using h5
  · exact List.sorted_insertionSort expBefore _
  · intro hnone
    have hfil : s.expenses.filter (matchesFilter user_id start_date end_date
        categories amount_range) = [] := by
      apply List.filter_eq_nil_iff.mpr
      intro e he
      simp [hnone e he]
    rw [get_filtered_expenses, hfil]
    rfl

/-! ## C1: the non-negative-balance invariant -/

theorem ledgerInv_save (uid : Nat) (s : DBState) (d : ExpenseData)
    (hamt : 0 ≤ d.amount)
    (hm : d.payment_method = "UPI" ∨ d.payment_method = "Cash")
    (hI : LedgerInv uid s) : LedgerInv uid (save_expense s d).2 := by
  obtain ⟨hupi, hcash, hexp⟩ := hI
  have hexp' : ∀ e ∈ s.expenses ++
      [(⟨s.next_id, d.user_id, d.category, d.title, d.amount, d.date, d.notes,
        d.payment_method⟩ : Expense)], e.user_id = uid → 0 ≤ e.amount := by
    intro e he hu
    rcases List.mem_append.mp he with h | h
    · exact hexp e h hu
    · rw [List.mem_singleton] at h
      subst h
      exact hamt
  rcases hm with hpm | hpm
  · by_cases hlt : (s.wallets d.user_id).upi_balance < d.amount
    · have hs : save_expense s d =
          (insufficientMsg "UPI" (s.wallets d.user_id).upi_balance d.amount, s) := by
        simp [save_expense, hpm, hlt]
      rw [hs]
      exact ⟨hupi, hcash, hexp⟩
    · rw [save_expense_ok s d (Or.inl hpm) (by rw [hpm]; simpa using not_lt.mp hlt)]
      refine ⟨?_, ?_, hexp'⟩ <;> by_cases huid : uid = d.user_id
      · subst huid
        simp [hpm]
        exact not_lt.mp hlt
      · simp [huid]
        exact hupi
      · subst huid
        simp [hpm]
        exact hcash
      · simp [huid]
        exact hcash
  · by_cases hlt : (s.wallets d.user_id).cash_balance < d.amount
    · have hs : save_expense s d =
          (insufficientMsg "Cash" (s.wallets d.user_id).cash_balance d.amount, s) := by
        simp [save_expense, hpm, hlt]
      rw [hs]
      exact ⟨hupi, hcash, hexp⟩
    · rw [save_expense_ok s d (Or.inr hpm) (by rw [hpm]; simpa using not_lt.mp hlt)]
      refine ⟨?_, ?_, hexp'⟩ <;> by_cases huid : uid = d.user_id
      · subst huid
        simp [hpm]
        exact hupi
      · simp [huid]
        exact hupi
      · subst huid
        simp [hpm]
        exact not_lt.mp hlt
      · simp [huid]
        exact hcash

theorem ledgerInv_delete (uid : Nat) (s : DBState) (expense_id user_id : Nat)
    (hI : LedgerInv uid s) : LedgerInv uid (delete_expense s expense_id user_id).2 := by
  obtain ⟨hupi, hcash, hexp⟩ := hI
  cases hfind : find_expense s expense_id user_id with
  | none =>
    simp only [delete_expense, hfind]
    exact ⟨hupi, hcash, hexp⟩
  | some e =>
    have hmem := find_expense_mem hfind
    obtain ⟨-, huser⟩ := find_expense_fields hfind
    simp only [delete_expense, hfind]
    by_cases hpm : e.payment_method = "UPI"
    · rw [if_pos hpm]
      refine ⟨?_, ?_, ?_⟩
      · by_cases huid : uid = user_id
        · subst huid
          simp [setUserWallet]
          exact add_nonneg hupi (hexp e hmem huser)
        · simp [setUserWallet, huid]
          exact hupi
      · by_cases huid : uid = user_id
        · subst huid
          simp [setUserWallet]
          exact hcash
        · simp [setUserWallet, huid]
          exact hcash
      · intro x hx hu
        exact hexp x (List.mem_of_mem_filter hx) hu
    · rw [if_neg hpm]
      refine ⟨?_, ?_, ?_⟩
      · by_cases huid : uid = user_id
        · subst huid
          simp [setUserWallet]
          exact hupi
        · simp [setUserWallet, huid]
          exact hupi
      · by_cases huid : uid = user_id
        · subst huid
          simp [setUserWallet]
          exact add_nonneg hcash (hexp e hmem huser)
        · simp [setUserWallet, huid]
          exact hcash
      · intro x hx hu
        exact hexp x (List.mem_of_mem_filter hx) hu

theorem ledgerInv_update (uid : Nat) (s : DBState) (expense_id user_id : Nat)
    (u : UpdatedData)
    (hamt : 0 ≤ u.amount)
    (hm : u.payment_method = "UPI" ∨ u.payment_method = "Cash")
    (hI : LedgerInv uid s) : LedgerInv uid (update_expense s expense_id user_id u).2 := by
  obtain ⟨hupi, hcash, hexp⟩ := hI
  cases hfind : find_expense s expense_id user_id with
  | none =>
    simp only [update_expense, hfind]
    exact ⟨hupi, hcash, hexp⟩
  | some old =>
    have hmem := find_expense_mem hfind
    obtain ⟨-, huser⟩ := find_expense_fields hfind
    by_cases hc1 : u.payment_method = "UPI" ∧
        (if old.payment_method = "UPI"
         then (s.wallets user_id).upi_balance + old.amount
         else (s.wallets user_id).upi_balance) < u.amount
    · simp only [update_expense, hfind, if_pos hc1]
      exact ⟨hupi, hcash, hexp⟩
    by_cases hc2 : u.payment_method = "Cash" ∧
        (if old.payment_method = "UPI"
         then (s.wallets user_id).cash_balance
         else (s.wallets user_id).cash_balance + old.amount) < u.amount
    · simp only [update_expense, hfind, if_neg hc1, if_pos hc2]
      exact ⟨hupi, hcash, hexp⟩
    simp only [update_expense, hfind, if_neg hc1, if_neg hc2]
    have hexp' : ∀ x ∈ s.expenses.map (fun e =>
        if e.id == expense_id && e.user_id == user_id then
          { e with category := u.category, title := u.title,
                   amount := u.amount, date := u.date, notes := u.notes,
                   payment_method := u.payment_method }
        else e), x.user_id = uid → 0 ≤ x.amount := by
      intro x hx hu
      obtain ⟨a, ha, hax⟩ := List.mem_map.mp hx
      by_cases hmatch : a.id == expense_id && a.user_id == user_id
      · rw [if_pos hmatch] at hax
        rw [← hax]
        exact hamt
      · rw [if_neg hmatch] at hax
        subst hax
        exact hexp a ha hu
    refine ⟨?_, ?_, hexp'⟩
    · by_cases huid : uid = user_id
      · subst huid
        have holdamt : 0 ≤ old.amount := hexp old hmem huser
        rcases hm with hnew | hnew
        · have hge : u.amount ≤
              (if old.payment_method = "UPI"
               then (s.wallets uid).upi_balance + old.amount
               else (s.wallets uid).upi_balance) :=
            not_lt.mp fun hlt => hc1 ⟨hnew, hlt⟩
          by_cases hold : old.payment_method = "UPI"
          · rw [if_pos hold] at hge
            simp [setUserWallet, hold, hnew]
            linarith
          · rw [if_neg hold] at hge
            simp [setUserWallet, hold, hnew]
            linarith
        · have hnu : ¬ u.payment_method = "UPI" := by rw [hnew]; decide
          by_cases hold : old.payment_method = "UPI"
          · simp [setUserWallet, hold, hnu]
            linarith
          · simp [setUserWallet, hold, hnu]
            linarith
      · simp [setUserWallet, huid]
        exact hupi
    · by_cases huid : uid = user_id
      · subst huid
        have holdamt : 0 ≤ old.amount := hexp old hmem huser
        rcases hm with hnew | hnew
        · by_cases hold : old.payment_method = "UPI"
          · simp [setUserWallet, hold, hnew]
            linarith
          · simp [setUserWallet, hold, hnew]
            linarith
        · have hge : u.amount ≤
              (if old.payment_method = "UPI"
               then (s.wallets uid).cash_balance
               else (s.wallets uid).cash_balance + old.amount) :=
            not_lt.mp fun hlt => hc2 ⟨hnew, hlt⟩
          have hnu : ¬ u.payment_method = "UPI" := by rw [hnew]; decide
          by_cases hold : old.payment_method = "UPI"
          · rw [if_pos hold] at hge
            simp [setUserWallet, hold, hnu]
            linarith
          · rw [if_neg hold] at hge
            simp [setUserWallet, hold, hnu]
            linarith
      · simp [setUserWallet, huid]
        exact hcash

theorem ledgerInv_applyOp (uid : Nat) (s : DBState) (op : Op)
    (hv : opValid op) (hI : LedgerInv uid s) : LedgerInv uid (applyOp s op) := by
  cases op with
  | add d => exact ledgerInv_save uid s d hv.1.le hv.2 hI
  | upd eid cuid u => exact ledgerInv_update uid s eid cuid u hv.1.le hv.2 hI
  | del eid cuid => exact ledgerInv_delete uid s eid cuid hI

theorem ledgerInv_runOps (uid : Nat) (s : DBState) (ops : List Op)
    (hv : ∀ op ∈ ops, opValid op) (hI : LedgerInv uid s) :
    LedgerInv uid (runOps s ops) := by
  induction ops generalizing s with
  | nil => exact hI
  | cons op rest ih =>
    simp only [runOps, List.foldl_cons]
    exact ih (applyOp s op) (fun o ho => hv o (List.mem_cons_of_mem op ho))
      (ledgerInv_applyOp uid s op (hv op (List.mem_cons_self op rest)) hI)

/-- C1 counterexample: the claim as stated quantifies only over the
starting balances. From the (reachable) state holding balances
`(0, 5) ≥ 0` but a stored expense with amount `-10` of method Cash — a
row the unvalidated add path can create — the one-element sequence of a
single DeleteExpense call (a call carrying neither an amount nor a
method, hence vacuously "with positive amounts and payment method in
{UPI, Cash}") credits `-10` back and drives `cash_balance` to `-5 < 0`. -/
theorem planted_negative_expense_breaks_nonneg :
    (0 : ℚ) ≤ ((⟨fun _ => ⟨0, 5⟩, [⟨1, 1, "Food", "t", -10, 0, "", "Cash"⟩], 2⟩ :
        DBState).wallets 1).upi_balance ∧
    (0 : ℚ) ≤ ((⟨fun _ => ⟨0, 5⟩, [⟨1, 1, "Food", "t", -10, 0, "", "Cash"⟩], 2⟩ :
        DBState).wallets 1).cash_balance ∧
    (∀ op ∈ [Op.del 1 1], opValid op) ∧
    ((runOps ⟨fun _ => ⟨0, 5⟩, [⟨1, 1, "Food", "t", -10, 0, "", "Cash"⟩], 2⟩
        [Op.del 1 1]).wallets 1).cash_balance < 0 := by
  refine ⟨by decide, by decide, ?_, ?_⟩
  · intro op hop
    rw [List.mem_singleton] at hop
    subst hop
    trivial
  · norm_num [runOps, applyOp, delete_expense, find_expense, List.find?,
      setUserWallet]
    simp

/-- C1 (amended): for every user whose wallet balances start non-negative
AND whose stored expenses all carry non-negative amounts at the start
(which is guaranteed whenever those rows were themselves created by
positive-amount adds, and is forced by the counterexample above), after
every operation (i.e. after every prefix) of every finite sequence of
save/update/delete calls whose adds and updates carry positive amounts
and a payment method in {UPI, Cash}, both `upi_balance ≥ 0` and
`cash_balance ≥ 0` hold. -/
theorem wallet_balances_nonneg_after_ops (uid : Nat) (s : DBState)
    (ops : List Op)
    (hupi : 0 ≤ (s.wallets uid).upi_balance)
    (hcash : 0 ≤ (s.wallets uid).cash_balance)
    (hexp : ∀ e ∈ s.expenses, e.user_id = uid → 0 ≤ e.amount)
    (hv : ∀ op ∈ ops, opValid op) :
    ∀ pre suf : List Op, ops = pre ++ suf →
      0 ≤ ((runOps s pre).wallets uid).upi_balance ∧
      0 ≤ ((runOps s pre).wallets uid).cash_balance := by
  intro pre suf heq
  have hvpre : ∀ op ∈ pre, opValid op := fun o ho =>
    hv o (heq ▸ List.mem_append_left suf ho)
  have hfin := ledgerInv_runOps uid s pre hvpre ⟨hupi, hcash, hexp⟩
  exact ⟨hfin.1, hfin.2.1⟩

theorem wallet_balances_nonneg_after_ops_witness :
    ((0 : ℚ) ≤ ((⟨fun _ => ⟨10, 10⟩, [], 1⟩ : DBState).wallets 1).upi_balance ∧
     (0 : ℚ) ≤ ((⟨fun _ => ⟨10, 10⟩, [], 1⟩ : DBState).wallets 1).cash_balance ∧
     (∀ e ∈ (⟨fun _ => ⟨10, 10⟩, [], 1⟩ : DBState).expenses,
        e.user_id = 1 → 0 ≤ e.amount) ∧
     (∀ op ∈ [Op.add ⟨1, "Food", "t", 4, 0, "", "UPI"⟩], opValid op)) ∧
    (∀ pre suf : List Op,
      [Op.add ⟨1, "Food", "t", 4, 0, "", "UPI"⟩] = pre ++ suf →
      0 ≤ ((runOps (⟨fun _ => ⟨10, 10⟩, [], 1⟩ : DBState) pre).wallets 1).upi_balance ∧
      0 ≤ ((runOps (⟨fun _ => ⟨10, 10⟩, [], 1⟩ : DBState) pre).wallets 1).cash_balance) :=
  ⟨⟨by decide, by decide, by simp,
    by
      intro op hop
      rw [List.mem_singleton] at hop
      subst hop
      exact ⟨by norm_num, Or.inl rfl⟩⟩,
   wallet_balances_nonneg_after_ops 1 ⟨fun _ => ⟨10, 10⟩, [], 1⟩
     [Op.add ⟨1, "Food", "t", 4, 0, "", "UPI"⟩] (by decide) (by decide) (by simp)
     (by
       intro op hop
       rw [List.mem_singleton] at hop
       subst hop
       exact ⟨by norm_num, Or.inl rfl⟩)⟩
